import Mathlib

/-!
Verification of the GardenWebsite viewport / pin-interaction core.

Shallow embedding of the JavaScript source:
- `src/components/PinLayer.jsx` (coordinate conversion, marker drag session),
- `src/components/ZoomableImage.jsx` (pan/zoom transform engine),
- `src/App.jsx` (pin list state, optimistic updates, delete),
- `src/components/DateFormatter.js` (relative date labels).

JavaScript numbers are modelled as exact rationals (ℚ); timestamps as ℤ
milliseconds.  Fallible / nullable values are modelled with `Option`.
-/

namespace Garden

/-- `clampPercent` from PinLayer.jsx / App.jsx:
`Math.max(0, Math.min(100, value))`. -/
def clampPercent (value : ℚ) : ℚ := max 0 (min 100 value)

/-- `clamp` from ZoomableImage.jsx: `Math.min(max, Math.max(min, value))`. -/
def clamp (value lo hi : ℚ) : ℚ := min hi (max lo value)

/-- `toScreen` from PinLayer.jsx.  The closure captures `transform`
(`pos.x`, `pos.y`, `scale`) and `imageSize` (`w`, `h`), passed here as
explicit arguments.  Returns `(left, top)`. -/
def toScreen (posX posY scale w h xPercent yPercent : ℚ) : ℚ × ℚ :=
  (posX + xPercent / 100 * w * scale, posY + yPercent / 100 * h * scale)

/-- `toPercent` from PinLayer.jsx.  Returns `(xPercent, yPercent)`,
each clamped into `[0, 100]`. -/
def toPercent (posX posY scale w h clientX clientY : ℚ) : ℚ × ℚ :=
  (clampPercent ((clientX - posX) / (w * scale) * 100),
   clampPercent ((clientY - posY) / (h * scale) * 100))

/-- `getBoundsFor` from ZoomableImage.jsx: the pan bounds
`(minX, minY) = (min 0 (cw - w*s), min 0 (ch - h*s))`. -/
def getBoundsFor (cw ch w h nextScale : ℚ) : ℚ × ℚ :=
  (min 0 (cw - w * nextScale), min 0 (ch - h * nextScale))

/-- `calculateMinScale` from ZoomableImage.jsx:
`Math.max(cw / naturalWidth, ch / naturalHeight)` (cover fit). -/
def calculateMinScale (cw ch naturalW naturalH : ℚ) : ℚ :=
  max (cw / naturalW) (ch / naturalH)

/-- `centerImage` from ZoomableImage.jsx: the centered offset
`((cw - w*scale)/2, (ch - h*scale)/2)`. -/
def centerImage (cw ch naturalW naturalH baseScale : ℚ) : ℚ × ℚ :=
  ((cw - naturalW * baseScale) / 2, (ch - naturalH * baseScale) / 2)

/-- `handleImageLoad` from ZoomableImage.jsx: computes the initial
`(scale, pos)` — scale is `calculateMinScale`, position is `centerImage`
at that scale. -/
def handleImageLoad (cw ch naturalW naturalH : ℚ) : ℚ × (ℚ × ℚ) :=
  let baseScale := calculateMinScale cw ch naturalW naturalH
  (baseScale, centerImage cw ch naturalW naturalH baseScale)

/-- `handleMouseMove` from ZoomableImage.jsx (pan): the new position is the
pointer position minus the drag anchor, clamped into the pan bounds at the
current scale. -/
def handleMouseMove (cw ch naturalW naturalH scale dragStartX dragStartY
    clientX clientY : ℚ) : ℚ × ℚ :=
  let b := getBoundsFor cw ch naturalW naturalH scale
  (clamp (clientX - dragStartX) b.1 0, clamp (clientY - dragStartY) b.2 0)

/-- The target-scale update in `handleWheel` from ZoomableImage.jsx:
`clamp(target - deltaY * 0.0015, minScale, minScale * 5)`
(`zoomIntensity = 0.0015 = 3/2000`). -/
def handleWheelTarget (minScale targetScale deltaY : ℚ) : ℚ :=
  clamp (targetScale - deltaY * (3 / 2000)) minScale (minScale * 5)

/-- `computeZoomedPos` from ZoomableImage.jsx: keeps the wheel anchor point
stable (`raw = mouse - rel * naturalSize * nextScale`) then clamps into the
pan bounds at `nextScale`. -/
def computeZoomedPos (cw ch naturalW naturalH mouseX mouseY relX relY
    nextScale : ℚ) : ℚ × ℚ :=
  let newW := naturalW * nextScale
  let newH := naturalH * nextScale
  let rawX := mouseX - relX * newW
  let rawY := mouseY - relY * newH
  let b := getBoundsFor cw ch naturalW naturalH nextScale
  (clamp rawX b.1 0, clamp rawY b.2 0)

/-- One frame of `smoothZoomStep` from ZoomableImage.jsx: if the remaining
difference is below the epsilon `0.001` snap to the target, otherwise move a
quarter of the way and clamp into `[minScale, minScale*5]`; either way the
position is recomputed by `computeZoomedPos` at the new scale.
Returns `(nextScale, nextPos)`. -/
def smoothZoomStep (cw ch naturalW naturalH minScale targetScale prevScale
    mouseX mouseY relX relY : ℚ) : ℚ × (ℚ × ℚ) :=
  let diff := targetScale - prevScale
  if |diff| < 1 / 1000 then
    (targetScale,
     computeZoomedPos cw ch naturalW naturalH mouseX mouseY relX relY targetScale)
  else
    let nextScale := clamp (prevScale + diff * (1 / 4)) minScale (minScale * 5)
    (nextScale,
     computeZoomedPos cw ch naturalW naturalH mouseX mouseY relX relY nextScale)

/-- `clampPercent` always lands in `[0, 100]`. -/
theorem clampPercent_mem (v : ℚ) : 0 ≤ clampPercent v ∧ clampPercent v ≤ 100 := by
  unfold clampPercent
  constructor
  · exact le_max_left 0 _
  · exact max_le (by norm_num) (min_le_left _ _)

/-- `clampPercent` is the identity on `[0, 100]`. -/
theorem clampPercent_eq_self {v : ℚ} (h0 : 0 ≤ v) (h1 : v ≤ 100) :
    clampPercent v = v := by
  unfold clampPercent
  rw [min_eq_right h1, max_eq_right h0]

/-- `clamp v lo hi ∈ [lo, hi]` whenever `lo ≤ hi`. -/
theorem clamp_mem {lo hi : ℚ} (v : ℚ) (h : lo ≤ hi) :
    lo ≤ clamp v lo hi ∧ clamp v lo hi ≤ hi := by
  unfold clamp
  constructor
  · exact le_min h (le_max_left _ _)
  · exact min_le_left _ _

/-- The pan-bounds predicate of the spec: each axis of a position lies within
`[min(0, containerSize - naturalSize*scale), 0]`, i.e. within the bounds
computed by `getBoundsFor` at the given scale. -/
def inPanBounds (cw ch naturalW naturalH scale : ℚ) (p : ℚ × ℚ) : Prop :=
  (getBoundsFor cw ch naturalW naturalH scale).1 ≤ p.1 ∧ p.1 ≤ 0 ∧
  (getBoundsFor cw ch naturalW naturalH scale).2 ≤ p.2 ∧ p.2 ≤ 0

/-- Both components of `getBoundsFor` are nonpositive. -/
theorem getBoundsFor_nonpos (cw ch naturalW naturalH scale : ℚ) :
    (getBoundsFor cw ch naturalW naturalH scale).1 ≤ 0 ∧
    (getBoundsFor cw ch naturalW naturalH scale).2 ≤ 0 :=
  ⟨min_le_left _ _, min_le_left _ _⟩

/-- `computeZoomedPos` always lands inside the pan bounds at its scale. -/
theorem computeZoomedPos_inPanBounds
    (cw ch naturalW naturalH mouseX mouseY relX relY nextScale : ℚ) :
    inPanBounds cw ch naturalW naturalH nextScale
      (computeZoomedPos cw ch naturalW naturalH mouseX mouseY relX relY nextScale) := by
  obtain ⟨hx, hy⟩ := getBoundsFor_nonpos cw ch naturalW naturalH nextScale
  unfold computeZoomedPos inPanBounds
  refine ⟨?_, ?_, ?_, ?_⟩
  · exact (clamp_mem _ hx).1
  · exact (clamp_mem _ hx).2
  · exact (clamp_mem _ hy).1
  · exact (clamp_mem _ hy).2

/-- C2: after every pan pointer-move (`handleMouseMove`) and after every zoom
animation step (`smoothZoomStep`, including the final snap, whose position is
computed by `computeZoomedPos`), each axis of the resulting offset lies within
`[min(0, containerSize - naturalSize*scale), 0]` at the scale in effect after
the operation. -/
theorem offset_always_in_pan_bounds (cw ch naturalW naturalH : ℚ) :
    (∀ scale dragStartX dragStartY clientX clientY : ℚ,
      inPanBounds cw ch naturalW naturalH scale
        (handleMouseMove cw ch naturalW naturalH scale dragStartX dragStartY
          clientX clientY))
    ∧ (∀ mouseX mouseY relX relY nextScale : ℚ,
      inPanBounds cw ch naturalW naturalH nextScale
        (computeZoomedPos cw ch naturalW naturalH mouseX mouseY relX relY
          nextScale))
    ∧ (∀ minScale targetScale prevScale mouseX mouseY relX relY : ℚ,
      inPanBounds cw ch naturalW naturalH
        (smoothZoomStep cw ch naturalW naturalH minScale targetScale prevScale
          mouseX mouseY relX relY).1
        (smoothZoomStep cw ch naturalW naturalH minScale targetScale prevScale
          mouseX mouseY relX relY).2) := by
  refine ⟨?_, ?_, ?_⟩
  · intro scale dragStartX dragStartY clientX clientY
    obtain ⟨hx, hy⟩ := getBoundsFor_nonpos cw ch naturalW naturalH scale
    unfold handleMouseMove inPanBounds
    exact ⟨(clamp_mem _ hx).1, (clamp_mem _ hx).2,
           (clamp_mem _ hy).1, (clamp_mem _ hy).2⟩
  · intro mouseX mouseY relX relY nextScale
    exact computeZoomedPos_inPanBounds cw ch naturalW naturalH
      mouseX mouseY relX relY nextScale
  · intro minScale targetScale prevScale mouseX mouseY relX relY
    simp only [smoothZoomStep]
    split
    · exact computeZoomedPos_inPanBounds cw ch naturalW naturalH
        mouseX mouseY relX relY targetScale
    · exact computeZoomedPos_inPanBounds cw ch naturalW naturalH
        mouseX mouseY relX relY _

/-- C3: the wheel handler clamps the target scale into
`[minScale, minScale*5]`; `calculateMinScale` is exactly
`max(containerW/naturalW, containerH/naturalH)`; and every animation steps
rendered scale stays within `[minScale, minScale*5]` (the snap branch because
the target itself is in range, the easing branch by its own clamp). -/
theorem zoom_scale_clamped
    (cw ch naturalW naturalH minScale targetScale deltaY prevScale
     mouseX mouseY relX relY : ℚ) (hm : 0 ≤ minScale) :
    calculateMinScale cw ch naturalW naturalH
      = max (cw / naturalW) (ch / naturalH)
    ∧ (minScale ≤ handleWheelTarget minScale targetScale deltaY
       ∧ handleWheelTarget minScale targetScale deltaY ≤ minScale * 5)
    ∧ (minScale ≤ targetScale → targetScale ≤ minScale * 5 →
       minScale ≤ (smoothZoomStep cw ch naturalW naturalH minScale targetScale
          prevScale mouseX mouseY relX relY).1
       ∧ (smoothZoomStep cw ch naturalW naturalH minScale targetScale
          prevScale mouseX mouseY relX relY).1 ≤ minScale * 5) := by
  have h5 : minScale ≤ minScale * 5 := by linarith
  refine ⟨rfl, ?_, ?_⟩
  · exact clamp_mem _ h5
  · intro ht1 ht2
    simp only [smoothZoomStep]
    split
    · exact ⟨ht1, ht2⟩
    · exact clamp_mem _ h5

/-- Witness for C3 at a concrete container, image and wheel event. -/
theorem zoom_scale_clamped_witness :
    (1 : ℚ) ≤ handleWheelTarget 1 2 (-100)
    ∧ handleWheelTarget 1 2 (-100) ≤ 1 * 5
    ∧ (1 : ℚ) ≤ (smoothZoomStep 800 600 1600 900 1 2 1 0 0 0 0).1
    ∧ (smoothZoomStep 800 600 1600 900 1 2 1 0 0 0 0).1 ≤ 1 * 5 := by
  have h := zoom_scale_clamped 800 600 1600 900 1 2 (-100) 1 0 0 0 0
    (by norm_num)
  have h3 := h.2.2 (by norm_num) (by norm_num)
  exact ⟨h.2.1.1, h.2.1.2, h3.1, h3.2⟩

/-- The cover scale for an 800×600 container and a 1600×900 image is `2/3`. -/
theorem calculateMinScale_example :
    calculateMinScale 800 600 1600 900 = 2 / 3 := by
  unfold calculateMinScale
  rw [max_eq_right (by norm_num : (800 : ℚ) / 1600 ≤ 600 / 900)]
  norm_num

/-- C5 counterexample: with an 800×600 container and a 1600×900 image the
initial offset x component is NOT `0` (it is `-400/3 ≈ -133.33`): the
image overflows horizontally at the cover scale `2/3` and centering shifts
it left. -/
theorem initial_offset_x_not_zero :
    (handleImageLoad 800 600 1600 900).2.1 ≠ 0 := by
  simp only [handleImageLoad, centerImage, calculateMinScale_example]
  norm_num

/-- C5 (amended): with an 800×600 container and a 1600×900 image,
initialization sets the scale to `minScale = max(800/1600, 600/900) = 2/3`
and centers the image, giving `offset.y = (600 - 900*(2/3))/2 = 0` and
`offset.x = (800 - 1600*(2/3))/2 = -400/3`. -/
theorem initial_transform_values :
    handleImageLoad 800 600 1600 900 = (2 / 3, (-400 / 3, 0)) := by
  simp only [handleImageLoad, centerImage, calculateMinScale_example]
  norm_num

/-- C1: for `xPercent, yPercent ∈ [0,100]`, positive scale and positive
natural image dimensions, `toPercent` is a left inverse of `toScreen`:
converting a pin percentage position to screen coordinates and back
returns exactly the original percentages. -/
theorem toScreen_toPercent_roundtrip
    (posX posY scale w h xPercent yPercent : ℚ)
    (hs : 0 < scale) (hw : 0 < w) (hh : 0 < h)
    (hx0 : 0 ≤ xPercent) (hx1 : xPercent ≤ 100)
    (hy0 : 0 ≤ yPercent) (hy1 : yPercent ≤ 100) :
    toPercent posX posY scale w h
      (toScreen posX posY scale w h xPercent yPercent).1
      (toScreen posX posY scale w h xPercent yPercent).2
      = (xPercent, yPercent) := by
  unfold toPercent toScreen
  have hws : w * scale ≠ 0 := by positivity
  have hhs : h * scale ≠ 0 := by positivity
  have ex : (posX + xPercent / 100 * w * scale - posX) / (w * scale) * 100
      = xPercent := by
    field_simp
    ring
  have ey : (posY + yPercent / 100 * h * scale - posY) / (h * scale) * 100
      = yPercent := by
    field_simp
    ring
  simp only [ex, ey, clampPercent_eq_self hx0 hx1, clampPercent_eq_self hy0 hy1]

/-- Witness for C1 at a concrete transform and position. -/
theorem toScreen_toPercent_roundtrip_witness :
    toPercent 5 7 2 1600 900
      (toScreen 5 7 2 1600 900 25 75).1
      (toScreen 5 7 2 1600 900 25 75).2
      = (25, 75) :=
  toScreen_toPercent_roundtrip 5 7 2 1600 900 25 75
    (by norm_num) (by norm_num) (by norm_num)
    (by norm_num) (by norm_num) (by norm_num) (by norm_num)

/-- `addPinAtClient` from App.jsx, up to the network call: the payload
coordinates for a new pin.  Returns `none` when the natural image size is not
yet known (`if (!width || !height) return` — in JavaScript only `0` is falsy
for a number here), otherwise the clamped percentage position. -/
def addPinAtClient (posX posY scale w h clientX clientY : ℚ) : Option (ℚ × ℚ) :=
  if w = 0 ∨ h = 0 then none
  else
    some (clampPercent ((clientX - posX) / (w * scale) * 100),
          clampPercent ((clientY - posY) / (h * scale) * 100))

/-- C6: every stored pin coordinate is clamped into `[0,100]`: whenever
`addPinAtClient` produces a payload its coordinates are in range, and the
position computed by `toPercent` (used for drag repositioning) is always in
range — for every screen point, including points outside the image. -/
theorem stored_coordinates_clamped
    (posX posY scale w h clientX clientY : ℚ) :
    (∀ p, addPinAtClient posX posY scale w h clientX clientY = some p →
      0 ≤ p.1 ∧ p.1 ≤ 100 ∧ 0 ≤ p.2 ∧ p.2 ≤ 100)
    ∧ (0 ≤ (toPercent posX posY scale w h clientX clientY).1
       ∧ (toPercent posX posY scale w h clientX clientY).1 ≤ 100
       ∧ 0 ≤ (toPercent posX posY scale w h clientX clientY).2
       ∧ (toPercent posX posY scale w h clientX clientY).2 ≤ 100) := by
  constructor
  · intro p hp
    unfold addPinAtClient at hp
    split at hp
    · exact absurd hp (by simp)
    · obtain ⟨hx1, hx2⟩ := clampPercent_mem ((clientX - posX) / (w * scale) * 100)
      obtain ⟨hy1, hy2⟩ := clampPercent_mem ((clientY - posY) / (h * scale) * 100)
      cases hp
      exact ⟨hx1, hx2, hy1, hy2⟩
  · obtain ⟨hx1, hx2⟩ := clampPercent_mem ((clientX - posX) / (w * scale) * 100)
    obtain ⟨hy1, hy2⟩ := clampPercent_mem ((clientY - posY) / (h * scale) * 100)
    exact ⟨hx1, hx2, hy1, hy2⟩

/-- Witness for C6 at a concrete transform and a click far outside the
image (the raw x percentage would be 1000). -/
theorem stored_coordinates_clamped_witness :
    addPinAtClient 0 0 1 100 100 1000 (-50) = some (100, 0)
    ∧ (0 : ℚ) ≤ 100 ∧ (100 : ℚ) ≤ 100 ∧ (0 : ℚ) ≤ 0 ∧ (0 : ℚ) ≤ 100 := by
  have heq : addPinAtClient 0 0 1 100 100 1000 (-50) = some (100, 0) := by
    simp only [addPinAtClient, clampPercent]
    norm_num [min_def, max_def]
  have h := (stored_coordinates_clamped 0 0 1 100 100 1000 (-50)).1
    (100, 0) heq
  exact ⟨heq, h.1, h.2.1, h.2.2.1, by norm_num⟩

/-! ### DateFormatter.js -/

/-- `MS_PER_DAY = 1000 * 60 * 60 * 24` from DateFormatter.js. -/
def MS_PER_DAY : ℤ := 1000 * 60 * 60 * 24

/-- `formatLastWatered` from DateFormatter.js.  JavaScript `Date` parsing is
abstracted as `parse : String → Option ℤ` (epoch milliseconds; `none` models
`Number.isNaN(last.getTime())`), and `now` is the current epoch time in
milliseconds.  A `none` input models `null`/`undefined`; the empty string is
the remaining falsy string, so both hit the `!lastWateredIso` early return. -/
def formatLastWatered (parse : String → Option ℤ) (now : ℤ)
    (lastWateredIso : Option String) : String :=
  match lastWateredIso with
  | none => "Probably"
  | some s =>
    if s = "" then "Probably"
    else
      match parse s with
      | none => "Probably"
      | some lastMs =>
        let diffMs := now - lastMs
        if diffMs ≤ 0 then "Today"
        else
          let diffDays := diffMs / MS_PER_DAY
          if diffDays ≤ 0 then "Today"
          else if diffDays = 1 then "1 day ago"
          else toString diffDays ++ " days ago"

/-- C7: relative-time labels produced by `formatLastWatered`, for every
current time `now` and every parse result `t` for the string `s`:
a missing value yields `"Probably"`; a timestamp at or after `now` yields
`"Today"`; 0 whole days before now yields `"Today"`; 1 whole day before now
yields `"1 day ago"`; 5 whole days before now yields `"5 days ago"`. -/
theorem formatLastWatered_cases
    (parse : String → Option ℤ) (now t : ℤ) (s : String)
    (hs : s ≠ "") (hp : parse s = some t) :
    formatLastWatered parse now none = "Probably"
    ∧ (now - t ≤ 0 → formatLastWatered parse now (some s) = "Today")
    ∧ (0 ≤ now - t → now - t < MS_PER_DAY →
        formatLastWatered parse now (some s) = "Today")
    ∧ (MS_PER_DAY ≤ now - t → now - t < 2 * MS_PER_DAY →
        formatLastWatered parse now (some s) = "1 day ago")
    ∧ (5 * MS_PER_DAY ≤ now - t → now - t < 6 * MS_PER_DAY →
        formatLastWatered parse now (some s) = "5 days ago") := by
  have hms : MS_PER_DAY = 86400000 := by norm_num [MS_PER_DAY]
  refine ⟨rfl, ?_, ?_, ?_, ?_⟩
  · intro h1
    simp only [formatLastWatered, if_neg hs, hp]
    rw [if_pos h1]
  · intro h1 h2
    simp only [formatLastWatered, if_neg hs, hp]
    by_cases h0 : now - t ≤ 0
    · rw [if_pos h0]
    · rw [if_neg h0]
      have hd : (now - t) / MS_PER_DAY = 0 := by
        rw [hms]; rw [hms] at h2; omega
      rw [hd]
      norm_num
  · intro h1 h2
    simp only [formatLastWatered, if_neg hs, hp]
    have h0 : ¬ (now - t ≤ 0) := by rw [hms] at h1; omega
    rw [if_neg h0]
    have hd : (now - t) / MS_PER_DAY = 1 := by
      rw [hms]; rw [hms] at h1 h2; omega
    rw [hd]
    norm_num
  · intro h1 h2
    simp only [formatLastWatered, if_neg hs, hp]
    have h0 : ¬ (now - t ≤ 0) := by rw [hms] at h1; omega
    rw [if_neg h0]
    have hd : (now - t) / MS_PER_DAY = 5 := by
      rw [hms]; rw [hms] at h1 h2; omega
    rw [hd]
    norm_num
    rfl

/-- Witness for C7: all five branches at concrete timestamps (taking
`now = 0` and parse functions returning fixed instants). -/
theorem formatLastWatered_cases_witness :
    formatLastWatered (fun _ => some 5) 0 none = "Probably"
    ∧ formatLastWatered (fun _ => some 5) 0 (some "x") = "Today"
    ∧ formatLastWatered (fun _ => some (-5)) 0 (some "x") = "Today"
    ∧ formatLastWatered (fun _ => some (-MS_PER_DAY)) 0 (some "x")
        = "1 day ago"
    ∧ formatLastWatered (fun _ => some (-(5 * MS_PER_DAY))) 0 (some "x")
        = "5 days ago" := by
  refine ⟨(formatLastWatered_cases (fun _ => some 5) 0 5 "x"
            (by decide) rfl).1,
          (formatLastWatered_cases (fun _ => some 5) 0 5 "x"
            (by decide) rfl).2.1 (by norm_num),
          (formatLastWatered_cases (fun _ => some (-5)) 0 (-5) "x"
            (by decide) rfl).2.2.1 (by norm_num) (by norm_num [MS_PER_DAY]),
          (formatLastWatered_cases (fun _ => some (-MS_PER_DAY)) 0
            (-MS_PER_DAY) "x" (by decide) rfl).2.2.2.1
            (by norm_num) (by norm_num [MS_PER_DAY]),
          (formatLastWatered_cases (fun _ => some (-(5 * MS_PER_DAY))) 0
            (-(5 * MS_PER_DAY)) "x" (by decide) rfl).2.2.2.2
            (by norm_num [MS_PER_DAY]) (by norm_num [MS_PER_DAY])⟩

/-- C9: a non-empty string that does not parse as a valid date
(`Number.isNaN(last.getTime())`, modelled as `parse s = none`) yields the
same `"Probably"` fallback as a missing value, for every current time. -/
theorem formatLastWatered_unparsable
    (parse : String → Option ℤ) (now : ℤ) (s : String)
    (hs : s ≠ "") (hp : parse s = none) :
    formatLastWatered parse now (some s) = "Probably" := by
  simp only [formatLastWatered, if_neg hs, hp]

/-- Witness for C9 at a concrete garbage string. -/
theorem formatLastWatered_unparsable_witness :
    formatLastWatered (fun _ => none) 0 (some "not-a-date") = "Probably" :=
  formatLastWatered_unparsable (fun _ => none) 0 "not-a-date" (by decide) rfl

/-! ### App.jsx pin state -/

/-- A pin as held in App.jsx local state. -/
structure Pin where
  id : ℕ
  xPercent : ℚ
  yPercent : ℚ
  name : String
  pinType : String
  wateringIntervalDays : Option ℤ
  lastWatered : Option String
deriving DecidableEq

/-- `updatePinLocal` from App.jsx:
`prevPins.map(pin => pin.id === pinId ? {...pin, ...patchOrDto} : pin)`.
The object-spread merge `{...pin, ...patchOrDto}` for a fixed patch or
server DTO is embedded as the function `merge : Pin → Pin`. -/
def updatePinLocal (pinId : ℕ) (merge : Pin → Pin) (pins : List Pin) :
    List Pin :=
  pins.map (fun pin => if pin.id = pinId then merge pin else pin)

/-- `handleMovePin` from App.jsx: live drag preview routes through
`updatePinLocal`, merging only `xPercent`/`yPercent`. -/
def handleMovePin (pinId : ℕ) (xPercent yPercent : ℚ) (pins : List Pin) :
    List Pin :=
  updatePinLocal pinId
    (fun pin => { pin with xPercent := xPercent, yPercent := yPercent }) pins

/-- `handleMarkWatered` from App.jsx, reconciliation step: on success the
server DTO is merged into the matching pin via `updatePinLocal`
(`{...pin, ...updated}` embedded as `updated : Pin → Pin`). -/
def handleMarkWatered (pinId : ℕ) (updated : Pin → Pin) (pins : List Pin) :
    List Pin :=
  updatePinLocal pinId updated pins

/-- C10: every mutation routed through `updatePinLocal` (including the
`handleMovePin` live preview and the `handleMarkWatered` reconciliation)
preserves the length of the pin list and leaves every pin whose id differs
from the target id unchanged at its original position. -/
theorem updatePinLocal_frame (pinId : ℕ) (merge : Pin → Pin)
    (pins : List Pin) (xPercent yPercent : ℚ) (updated : Pin → Pin) :
    (updatePinLocal pinId merge pins).length = pins.length
    ∧ (∀ (i : ℕ) (p : Pin), pins[i]? = some p → p.id ≠ pinId →
        (updatePinLocal pinId merge pins)[i]? = some p)
    ∧ (∀ (i : ℕ) (p : Pin), pins[i]? = some p → p.id ≠ pinId →
        (handleMovePin pinId xPercent yPercent pins)[i]? = some p)
    ∧ (∀ (i : ℕ) (p : Pin), pins[i]? = some p → p.id ≠ pinId →
        (handleMarkWatered pinId updated pins)[i]? = some p) := by
  have key : ∀ (m : Pin → Pin) (i : ℕ) (p : Pin),
      pins[i]? = some p → p.id ≠ pinId →
      (updatePinLocal pinId m pins)[i]? = some p := by
    intro m i p hp hne
    unfold updatePinLocal
    rw [List.getElem?_map, hp]
    simp [if_neg hne]
  refine ⟨?_, key merge, ?_, ?_⟩
  · unfold updatePinLocal
    exact List.length_map _ _
  · intro i p hp hne
    exact key _ i p hp hne
  · intro i p hp hne
    exact key updated i p hp hne

/-- Witness for C10: moving pin 1 leaves pin 2 (at index 1) unchanged. -/
theorem updatePinLocal_frame_witness :
    (handleMovePin 1 50 50
      [⟨1, 10, 20, "rose", "flower", none, none⟩,
       ⟨2, 30, 40, "fern", "plant", none, none⟩])[1]?
      = some ⟨2, 30, 40, "fern", "plant", none, none⟩ :=
  (updatePinLocal_frame 1 id
    [⟨1, 10, 20, "rose", "flower", none, none⟩,
     ⟨2, 30, 40, "fern", "plant", none, none⟩] 50 50 id).2.2.1
    1 ⟨2, 30, 40, "fern", "plant", none, none⟩ rfl (by decide)

/-- The App.jsx UI state touched by `handleDeletePin`. -/
structure AppState where
  pins : List Pin
  selectedPinId : Option ℕ
  isDetailsOpen : Bool
deriving DecidableEq

/-- `handleDeletePin` from App.jsx: when the `deletePin` request succeeds the
pin is filtered out of local state and the details panel / selection are
cleared; when it fails (the `catch` branch) the state is untouched. -/
def handleDeletePin (success : Bool) (pinId : ℕ) (st : AppState) : AppState :=
  if success then
    { pins := st.pins.filter (fun p => p.id != pinId),
      selectedPinId := none,
      isDetailsOpen := false }
  else st

/-- C8: on a successful delete the pin is removed from local state (no pin
with that id remains, all other pins remain), and the popup/panel is closed
and the selection cleared (in particular whenever the deleted pin was
selected or its panel open); on a failed delete the pin list, selection and
panel state are unchanged. -/
theorem handleDeletePin_spec (pinId : ℕ) (st : AppState) :
    (∀ p ∈ (handleDeletePin true pinId st).pins, p.id ≠ pinId)
    ∧ (∀ p ∈ st.pins, p.id ≠ pinId → p ∈ (handleDeletePin true pinId st).pins)
    ∧ ((st.selectedPinId = some pinId ∨ st.isDetailsOpen = true) →
        (handleDeletePin true pinId st).selectedPinId = none
        ∧ (handleDeletePin true pinId st).isDetailsOpen = false)
    ∧ handleDeletePin false pinId st = st := by
  refine ⟨?_, ?_, ?_, rfl⟩
  · intro p hp
    simp only [handleDeletePin, if_pos, List.mem_filter, bne_iff_ne] at hp
    exact hp.2
  · intro p hp hne
    simp only [handleDeletePin, if_pos, List.mem_filter, bne_iff_ne]
    exact ⟨hp, hne⟩
  · intro _
    exact ⟨rfl, rfl⟩

/-- Witness for C8: deleting selected pin 1 keeps pin 2 and clears the
selection and panel. -/
theorem handleDeletePin_spec_witness :
    (⟨2, 30, 40, "fern", "plant", none, none⟩ : Pin)
      ∈ (handleDeletePin true 1
          ⟨[⟨1, 10, 20, "rose", "flower", none, none⟩,
            ⟨2, 30, 40, "fern", "plant", none, none⟩],
           some 1, true⟩).pins
    ∧ (handleDeletePin true 1
        ⟨[⟨1, 10, 20, "rose", "flower", none, none⟩,
          ⟨2, 30, 40, "fern", "plant", none, none⟩],
         some 1, true⟩).selectedPinId = none := by
  have h := handleDeletePin_spec 1
    ⟨[⟨1, 10, 20, "rose", "flower", none, none⟩,
      ⟨2, 30, 40, "fern", "plant", none, none⟩], some 1, true⟩
  exact ⟨h.2.1 ⟨2, 30, 40, "fern", "plant", none, none⟩ (by simp)
          (by decide),
         (h.2.2.1 (Or.inl rfl)).1⟩

/-! ### PinLayer.jsx marker drag session -/

/-- The `dragRef` contents from PinLayer.jsx. -/
structure DragSt where
  draggingPinId : Option ℕ
  pointerId : Option ℕ
  startClient : Option (ℚ × ℚ)
  lastPercent : Option (ℚ × ℚ)
  hasMoved : Bool
deriving DecidableEq

/-- `startDrag` from PinLayer.jsx: in edit mode with a known image size,
begin a drag session for the given pin and pointer; otherwise leave the
session untouched.  (`hasImageSize` is `width > 0 && height > 0`.) -/
def startDrag (mode : String) (w h : ℚ) (st : DragSt)
    (pinId ptrId : ℕ) (clientX clientY : ℚ) : DragSt :=
  if mode ≠ "edit" then st
  else if ¬(0 < w ∧ 0 < h) then st
  else
    { draggingPinId := some pinId, pointerId := some ptrId,
      startClient := some (clientX, clientY), lastPercent := none,
      hasMoved := false }

/-- `moveDrag` from PinLayer.jsx.  Returns the new session state and the
`onMovePin(pinId, next)` emission, if any.  The displacement test
`Math.hypot(dx, dy) < 4` is written as `dx^2 + dy^2 < 16` (both sides
squared; equivalent for real arguments).  The `startClient = none` case
cannot arise while `draggingPinId` is set. -/
def moveDrag (posX posY scale w h : ℚ) (st : DragSt) (ptrId : ℕ)
    (clientX clientY : ℚ) : DragSt × Option (ℕ × (ℚ × ℚ)) :=
  match st.draggingPinId, st.startClient with
  | none, _ => (st, none)
  | some _, none => (st, none)
  | some pid, some start =>
    if st.pointerId ≠ some ptrId then (st, none)
    else if ¬(0 < w ∧ 0 < h) then (st, none)
    else
      let dx := clientX - start.1
      let dy := clientY - start.2
      if st.hasMoved = false ∧ dx ^ 2 + dy ^ 2 < 16 then (st, none)
      else
        let next := toPercent posX posY scale w h clientX clientY
        ({ st with hasMoved := true, lastPercent := some next },
         some (pid, next))

/-- `endDrag` from PinLayer.jsx.  Clears the session; returns the
`onCommitMovePin(pinId, lastPercent)` emission, issued only when the
threshold was crossed (`hasMoved`) and a last position exists. -/
def endDrag (st : DragSt) (ptrId : ℕ) : DragSt × Option (ℕ × (ℚ × ℚ)) :=
  match st.draggingPinId with
  | none => (st, none)
  | some pid =>
    if st.pointerId ≠ some ptrId then (st, none)
    else
      let cleared : DragSt :=
        { draggingPinId := none, pointerId := none, startClient := none,
          lastPercent := none, hasMoved := false }
      match st.hasMoved, st.lastPercent with
      | true, some lp => (cleared, some (pid, lp))
      | _, _ => (cleared, none)

/-- Feeds a list of pointer-move events `(pointerId, clientX, clientY)`
through `moveDrag`, collecting the emitted `onMovePin` calls in order. -/
def runMoves (posX posY scale w h : ℚ) (st : DragSt) :
    List (ℕ × ℚ × ℚ) → DragSt × List (ℕ × (ℚ × ℚ))
  | [] => (st, [])
  | e :: rest =>
    let r := moveDrag posX posY scale w h st e.1 e.2.1 e.2.2
    let rr := runMoves posX posY scale w h r.1 rest
    (rr.1, r.2.toList ++ rr.2)

/-- A fresh drag session as created by `startDrag` in edit mode. -/
def freshDrag (pid ptr : ℕ) (sx sy : ℚ) : DragSt :=
  { draggingPinId := some pid, pointerId := some ptr,
    startClient := some (sx, sy), lastPercent := none, hasMoved := false }

/-- The cleared session left behind by `endDrag`. -/
def clearedDrag : DragSt :=
  { draggingPinId := none, pointerId := none, startClient := none,
    lastPercent := none, hasMoved := false }

/-- An under-threshold move on a fresh session is a no-op. -/
theorem moveDrag_under_threshold (posX posY scale w h sx sy : ℚ)
    (pid ptr : ℕ) (e : ℕ × ℚ × ℚ)
    (hlt : (e.2.1 - sx) ^ 2 + (e.2.2 - sy) ^ 2 < 16) :
    moveDrag posX posY scale w h (freshDrag pid ptr sx sy) e.1 e.2.1 e.2.2
      = (freshDrag pid ptr sx sy, none) := by
  unfold moveDrag freshDrag
  by_cases hptr : (some ptr : Option ℕ) ≠ some e.1
  · simp [hptr]
  · by_cases hsz : 0 < w ∧ 0 < h
    · simp [hptr, hsz, hlt]
    · simp [hptr, hsz]

/-- A whole sequence of under-threshold moves leaves a fresh session
untouched and emits nothing. -/
theorem runMoves_under_threshold (posX posY scale w h sx sy : ℚ)
    (pid ptr : ℕ) (moves : List (ℕ × ℚ × ℚ))
    (hall : ∀ e ∈ moves, (e.2.1 - sx) ^ 2 + (e.2.2 - sy) ^ 2 < 16) :
    runMoves posX posY scale w h (freshDrag pid ptr sx sy) moves
      = (freshDrag pid ptr sx sy, []) := by
  induction moves with
  | nil => rfl
  | cons e rest ih =>
    have he := hall e (List.mem_cons_self e rest)
    have hrest := ih fun e' he' => hall e' (List.mem_cons_of_mem _ he')
    simp only [runMoves,
      moveDrag_under_threshold posX posY scale w h sx sy pid ptr e he, hrest]
    rfl

/-- C4: for a marker drag session (pointer-down through pointer-up in edit
mode): (a) if every pointer-move stays under 4 px of total displacement from
the start point, no `onMovePin` update is emitted and ending the session
issues no commit; (b) a move reaching 4 px or more emits a live update and
marks the session as moved; (c) once the session is marked moved, every
subsequent matching move emits a live update; (d) ending a moved session
issues exactly one `onCommitMovePin` carrying the final position and clears
the session, after which (e) further pointer events emit nothing; and
(f) every emitted position is clamped into `[0,100]` on both axes. -/
theorem drag_threshold_commit (posX posY scale w h sx sy : ℚ)
    (pid ptr : ℕ) (moves : List (ℕ × ℚ × ℚ)) :
    ((∀ e ∈ moves, (e.2.1 - sx) ^ 2 + (e.2.2 - sy) ^ 2 < 16) →
      (runMoves posX posY scale w h (freshDrag pid ptr sx sy) moves).2 = []
      ∧ (endDrag (runMoves posX posY scale w h (freshDrag pid ptr sx sy)
          moves).1 ptr).2 = none)
    ∧ (∀ clientX clientY : ℚ, 0 < w → 0 < h →
        16 ≤ (clientX - sx) ^ 2 + (clientY - sy) ^ 2 →
        moveDrag posX posY scale w h (freshDrag pid ptr sx sy) ptr
          clientX clientY
          = ({ freshDrag pid ptr sx sy with
                hasMoved := true,
                lastPercent :=
                  some (toPercent posX posY scale w h clientX clientY) },
             some (pid, toPercent posX posY scale w h clientX clientY)))
    ∧ (∀ (st : DragSt) (clientX clientY : ℚ), 0 < w → 0 < h →
        st.draggingPinId = some pid → st.pointerId = some ptr →
        st.startClient = some (sx, sy) → st.hasMoved = true →
        (moveDrag posX posY scale w h st ptr clientX clientY).2
          = some (pid, toPercent posX posY scale w h clientX clientY))
    ∧ (∀ (st : DragSt) (lp : ℚ × ℚ),
        st.draggingPinId = some pid → st.pointerId = some ptr →
        st.hasMoved = true → st.lastPercent = some lp →
        (endDrag st ptr).2 = some (pid, lp)
        ∧ (endDrag st ptr).1 = clearedDrag)
    ∧ ((moveDrag posX posY scale w h clearedDrag ptr sx sy).2 = none
        ∧ (endDrag clearedDrag ptr).2 = none)
    ∧ (∀ clientX clientY : ℚ,
        0 ≤ (toPercent posX posY scale w h clientX clientY).1
        ∧ (toPercent posX posY scale w h clientX clientY).1 ≤ 100
        ∧ 0 ≤ (toPercent posX posY scale w h clientX clientY).2
        ∧ (toPercent posX posY scale w h clientX clientY).2 ≤ 100) := by
  refine ⟨?_, ?_, ?_, ?_, ⟨rfl, rfl⟩, ?_⟩
  · intro hall
    rw [runMoves_under_threshold posX posY scale w h sx sy pid ptr moves hall]
    exact ⟨rfl, by simp [endDrag, freshDrag]⟩
  · intro clientX clientY hw hh hge
    unfold moveDrag freshDrag
    have hth : ¬ ((false = false) ∧
        (clientX - sx) ^ 2 + (clientY - sy) ^ 2 < 16) := by
      rintro ⟨-, hlt⟩
      linarith
    simp [show (0 < w ∧ 0 < h) from ⟨hw, hh⟩, hth, hge]
  · intro st clientX clientY hw hh hpid hptr hstart hmoved
    obtain ⟨d, p, sc, lp, hm⟩ := st
    simp only at hpid hptr hstart hmoved
    subst hpid hptr hstart hmoved
    unfold moveDrag
    simp [show (0 < w ∧ 0 < h) from ⟨hw, hh⟩]
  · intro st lp hpid hptr hmoved hlast
    obtain ⟨d, p, sc, l, hm⟩ := st
    simp only at hpid hptr hmoved hlast
    subst hpid hptr hmoved hlast
    unfold endDrag clearedDrag
    simp
  · intro clientX clientY
    obtain ⟨hx1, hx2⟩ :=
      clampPercent_mem ((clientX - posX) / (w * scale) * 100)
    obtain ⟨hy1, hy2⟩ :=
      clampPercent_mem ((clientY - posY) / (h * scale) * 100)
    exact ⟨hx1, hx2, hy1, hy2⟩

/-- Witness for C4: a 1 px move emits nothing, and ending a session whose
last emitted position was `(20, 10)` commits exactly that position. -/
theorem drag_threshold_commit_witness :
    (runMoves 0 0 1 100 100 (freshDrag 1 7 10 10) [(7, 11, 10)]).2 = []
    ∧ (endDrag ⟨some 1, some 7, some (10, 10), some (20, 10), true⟩ 7).2
        = some (1, (20, 10)) := by
  refine ⟨((drag_threshold_commit 0 0 1 100 100 10 10 1 7
            [(7, 11, 10)]).1 ?_).1,
          ((drag_threshold_commit 0 0 1 100 100 10 10 1 7
            [(7, 11, 10)]).2.2.2.1
            ⟨some 1, some 7, some (10, 10), some (20, 10), true⟩ (20, 10)
            rfl rfl rfl rfl).1⟩
  intro e he
  simp only [List.mem_singleton] at he
  subst he
  norm_num

end Garden
